import Mathlib

/-!
Verification of the multi-service resolution and session/transport management
subsystem of the drift-mcp repository.

The development shallowly embeds two source modules:

* the service-discovery module (interface DiscoveredService, functions
  parseConfigYaml and findTuskConfigs, class ServiceDiscoveryContext with
  resolveServiceId), and
* the HTTP handler module of server.ts (class McpSessionManager backed by a
  Map, and createHttpHandlers with handlePost, handleGet, handleDelete).

Filesystem access (existsSync, readFileSync, readdirSync, realpathSync) is
modelled by a structure of total functions whose Except results encode the
possibility that the underlying call throws; the try/catch blocks of the
source become matches on those results.  The two regular-expression matches
of parseConfigYaml are modelled by an oracle structure RegexModel giving, for
a file content, the trimmed-before-trim capture of each match (in JavaScript,
String.match is total and never throws); every theorem about the traversal
holds for every oracle.  JavaScript string truthiness (empty string is falsy)
is modelled by optTruthy.
-/

/-- One discovered Tusk service, from interface DiscoveredService. -/
structure DiscoveredService where
  id : String
  name : String
  configPath : String
  rootPath : String
deriving DecidableEq

/-- JavaScript truthiness of an optional string: present and non-empty.
Models conditions such as the test on providedServiceId, a value of type
string | undefined. -/
def optTruthy : Option String → Bool
  | none => false
  | some s => s != ""

/-- JavaScript Array.join with a newline separator, as used to build the
multiple-services error message. -/
def joinLines : List String → String
  | [] => ""
  | [x] => x
  | x :: y :: rest => x ++ "\n" ++ joinLines (y :: rest)

/-- One line of the multiple-services error message, from the map callback in
resolveServiceId. -/
def svcLine (s : DiscoveredService) : String :=
  "  - \"" ++ s.name ++ "\" (id: " ++ s.id ++ ")"

/-- The error message thrown when no service is configured. -/
def noServiceError : String :=
  "No Tusk service configured. Either set TUSK_DRIFT_SERVICE_ID " ++
    "environment variable or ensure a .tusk/config.yaml exists in your workspace."

/-- The error message thrown when several services were discovered. -/
def multipleServicesError (services : List DiscoveredService) : String :=
  "Multiple Tusk services found. Please specify observableServiceId:\n" ++
    joinLines (services.map svcLine)

/-- The state of class ServiceDiscoveryContext: the discovered-service list
and the default service id fixed at construction. -/
structure ServiceDiscoveryContext where
  discoveredServices : List DiscoveredService
  defaultServiceId : Option String
deriving DecidableEq

/-- ServiceDiscoveryContext.resolveServiceId.  The source checks the length
of the discovered list against 1, then against 0, and otherwise throws the
enumerating error; throwing is modelled by Except.error. -/
def resolveServiceId (ctx : ServiceDiscoveryContext)
    (providedServiceId : Option String) : Except String String :=
  if optTruthy providedServiceId then Except.ok (providedServiceId.getD "")
  else if optTruthy ctx.defaultServiceId then Except.ok (ctx.defaultServiceId.getD "")
  else
    match ctx.discoveredServices with
    | [s] => Except.ok s.id
    | [] => Except.error noServiceError
    | ss => Except.error (multipleServicesError ss)

/-- Substring containment on strings, at the character-list level. -/
def strInfix (needle hay : String) : Prop :=
  ∃ a b : List Char, hay.data = a ++ needle.data ++ b

/-- One entry of a readdirSync(dir, withFileTypes) result. -/
structure DirEntry where
  name : String
  isDirectory : Bool
deriving DecidableEq

/-- The filesystem, as seen by the discovery module.  An Except.error result
models the corresponding Node call throwing; existsSync never throws. -/
structure Fs where
  existsFile : String → Bool
  readFile : String → Except Unit String
  readdir : String → Except Unit (List DirEntry)
  realpath : String → Except Unit String

/-- Oracle for the two regular-expression matches of parseConfigYaml: for a
file content, the capture of the id match and of the name match (before
trimming).  JavaScript String.match is total, so the oracle is a total
function. -/
structure RegexModel where
  idMatch : String → Option String
  nameMatch : String → Option String

/-- path.join of a directory and one further component (POSIX form). -/
def pathJoin (a b : String) : String := a ++ "/" ++ b

/-- path.join(dir, ".tusk", "config.yaml"). -/
def tuskConfigPath (dir : String) : String :=
  pathJoin (pathJoin dir ".tusk") "config.yaml"

/-- path.basename: the last slash-separated component (directory paths here
never carry a trailing slash). -/
def basename (p : String) : String :=
  String.mk ((p.data.reverse.takeWhile (fun c => c != '/')).reverse)

/-- One character of JavaScript trimmable whitespace. -/
def isWsChar (c : Char) : Bool :=
  c == ' ' || c == '\t' || c == '\n' || c == '\r'

/-- JavaScript String.prototype.trim: drop whitespace at both ends. -/
def jsTrim (s : String) : String :=
  String.mk (((s.data.dropWhile isWsChar).reverse.dropWhile isWsChar).reverse)

/-- parseConfigYaml: read the file (returning no fields when the read throws)
and extract the trimmed captures of the id and name matches. -/
def parseConfigYaml (R : RegexModel) (fs : Fs) (configPath : String) :
    Option String × Option String :=
  match fs.readFile configPath with
  | Except.error _ => (none, none)
  | Except.ok content =>
      ((R.idMatch content).map jsTrim,
       (R.nameMatch content).map jsTrim)

/-- The mutable state threaded through findTuskConfigs: the services array
and the visited set (as a list of path strings). -/
structure SearchState where
  services : List DiscoveredService
  visited : List String
deriving DecidableEq

/-- JavaScript String.prototype.startsWith, at the character-list level. -/
def strStartsWith (s p : String) : Bool :=
  p.data.isPrefixOf s.data

/-- The condition under which the entry loop of searchDirectory descends
into an entry: a directory, not hidden, not node_modules. -/
def entryAllowed (e : DirEntry) : Bool :=
  e.isDirectory && !(strStartsWith e.name ".") && e.name != "node_modules"

/-- findTuskConfigs.searchDirectory.  The source guards on
depth > maxDepth and recurses at depth + 1 from depth 0; here fuel stands
for maxDepth + 1 - depth, so the guard becomes fuel = 0 and the top-level
call uses fuel maxDepth + 1.  The visited-set membership test, the config
check with early return, the truthiness tests on the parsed id and name,
the basename fallback, and the catch around readdirSync are as in the
source. -/
def searchDirectory (R : RegexModel) (fs : Fs) : Nat → String → SearchState → SearchState
  | 0, _, st => st
  | fuel + 1, dir, st =>
    if dir ∈ st.visited then st
    else
      let st1 : SearchState := { st with visited := dir :: st.visited }
      let configPath := tuskConfigPath dir
      if fs.existsFile configPath then
        let parsed := parseConfigYaml R fs configPath
        if optTruthy parsed.1 then
          { st1 with services := st1.services ++
              [{ id := parsed.1.getD "",
                 name := if optTruthy parsed.2 then parsed.2.getD "" else basename dir,
                 configPath := configPath,
                 rootPath := dir }] }
        else st1
      else
        match fs.readdir dir with
        | Except.error _ => st1
        | Except.ok entries =>
            entries.foldl
              (fun acc e =>
                if entryAllowed e then
                  searchDirectory R fs fuel (pathJoin dir e.name) acc
                else acc)
              st1
termination_by structural fuel _ _ => fuel

/-- The root as actually scanned: the canonical path when realpathSync
succeeds, the raw root otherwise. -/
def resolveRoot (fs : Fs) (root : String) : String :=
  match fs.realpath root with
  | Except.ok resolved => resolved
  | Except.error _ => root

/-- The per-root step of findTuskConfigs: try realpathSync and scan the
resolved root; on failure scan the raw root (the catch branch). -/
def rootStep (R : RegexModel) (fs : Fs) (maxDepth : Nat)
    (st : SearchState) (root : String) : SearchState :=
  match fs.realpath root with
  | Except.ok resolved => searchDirectory R fs (maxDepth + 1) resolved st
  | Except.error _ => searchDirectory R fs (maxDepth + 1) root st

/-- findTuskConfigs: fold the per-root step over the roots, starting from an
empty services array and an empty visited set shared by all roots. -/
def findTuskConfigs (R : RegexModel) (fs : Fs) (roots : List String)
    (maxDepth : Nat) : List DiscoveredService :=
  (roots.foldl (rootStep R fs maxDepth) { services := [], visited := [] }).services

/-- ServiceDiscoveryContext.discoverFromRoots: replace the discovered list
with a fresh scan at the default depth 3. -/
def discoverFromRoots (R : RegexModel) (fs : Fs)
    (ctx : ServiceDiscoveryContext) (roots : List String) : ServiceDiscoveryContext :=
  { ctx with discoveredServices := findTuskConfigs R fs roots 3 }

/-- Directories reachable by the descent rules of searchDirectory within a
given amount of fuel: refl needs one unit (the directory itself is
processed), and each step descends through a listed entry that is a
directory, not hidden and not node_modules. -/
inductive ReachesWithin (fs : Fs) : Nat → String → String → Prop where
  | refl (fuel : Nat) (dir : String) : ReachesWithin fs (fuel + 1) dir dir
  | step (fuel : Nat) (dir : String) (e : DirEntry) (entries : List DirEntry)
      (p : String) :
      fs.readdir dir = Except.ok entries → e ∈ entries →
      e.isDirectory = true → strStartsWith e.name "." = false →
      e.name ≠ "node_modules" →
      ReachesWithin fs fuel (pathJoin dir e.name) p →
      ReachesWithin fs (fuel + 1) dir p

/-- The session map of class McpSessionManager: a JavaScript Map from session
id to transport, modelled as an association list; distinct transport
instances are distinguished by a numeric tag. -/
abbrev SessionMap := List (String × Nat)

/-- Map.prototype.get: the value of the first (unique) matching key. -/
def mget : SessionMap → String → Option Nat
  | [], _ => none
  | (k, v) :: rest, key => if key = k then some v else mget rest key

/-- Map.prototype.has, as used by McpSessionManager.has. -/
def mhas (m : SessionMap) (key : String) : Bool :=
  (mget m key).isSome

/-- Map.prototype.set: replace in place when the key exists, append
otherwise. -/
def mset : SessionMap → String → Nat → SessionMap
  | [], key, v => [(key, v)]
  | (k, w) :: rest, key, v =>
      if key = k then (key, v) :: rest else (k, w) :: mset rest key v

/-- Map.prototype.delete, keeping only the other keys. -/
def mdelete : SessionMap → String → SessionMap
  | [], _ => []
  | (k, w) :: rest, key =>
      if key = k then mdelete rest key else (k, w) :: mdelete rest key

/-- Which transport the POST handler hands the request to. -/
inductive PostRoute where
  | reuse (tid : Nat)
  | created (tid : Nat)
deriving DecidableEq

/-- The synchronous outcome of handlePost up to the point where the request
is handed to a transport: the route taken, the session map as left by the
handler body (callbacks not yet fired), and whether the createServer factory
was invoked. -/
structure PostSync where
  route : PostRoute
  map : SessionMap
  serverCreated : Bool
deriving DecidableEq

/-- handlePost, synchronous part.  The source tests
sessionId && sessionManager.has(sessionId) (truthiness: an empty header
string fails the test) and then reuses sessionManager.get(sessionId);
otherwise it constructs a new transport (tagged freshTid) and invokes
createServer, touching the session map in neither branch. -/
def handlePostSync (m : SessionMap) (header : Option String) (freshTid : Nat) :
    PostSync :=
  match header with
  | some sid =>
    if sid ≠ "" then
      match mget m sid with
      | some t => { route := PostRoute.reuse t, map := m, serverCreated := false }
      | none => { route := PostRoute.created freshTid, map := m, serverCreated := true }
    else { route := PostRoute.created freshTid, map := m, serverCreated := true }
  | none => { route := PostRoute.created freshTid, map := m, serverCreated := true }

/-- The state observable around a freshly constructed transport on the
initiation path of handlePost: the session map, the session
id of the transport itself (assigned by the transport when it initializes), and the histories of
onSessionCreated and onSessionClosed invocations. -/
structure InitState where
  map : SessionMap
  tsid : Option String
  createdLog : List String
  closedLog : List String
deriving DecidableEq

/-- The state right after the synchronous body of handlePost on the
initiation path: the map is untouched and no callback has fired. -/
def initialInitState (m : SessionMap) : InitState :=
  { map := m, tsid := none, createdLog := [], closedLog := [] }

/-- Events the new transport can later emit. -/
inductive TransportEvent where
  | initialized (sid : String)
  | closed
deriving DecidableEq

/-- The callbacks handlePost registers on the new transport, tagged tid.
On initialization the transport takes the generated session id and the
onsessioninitialized callback installs the entry and fires onSessionCreated;
on closure the onclose hook reads transport.sessionId and, when present,
deletes that entry and fires onSessionClosed. -/
def stepEvent (tid : Nat) (st : InitState) : TransportEvent → InitState
  | TransportEvent.initialized sid =>
      { map := mset st.map sid tid, tsid := some sid,
        createdLog := st.createdLog ++ [sid], closedLog := st.closedLog }
  | TransportEvent.closed =>
      match st.tsid with
      | some sid =>
          { st with map := mdelete st.map sid, closedLog := st.closedLog ++ [sid] }
      | none => st

/-- Run a sequence of transport events. -/
def runEvents (tid : Nat) (st : InitState) (evs : List TransportEvent) : InitState :=
  evs.foldl (stepEvent tid) st

/-- The outcome of handleGet: the error status written by the handler itself
(if any), the transport the request was routed to (if any), and the session
map afterwards. -/
structure GetOutcome where
  status : Option Nat
  routed : Option Nat
  map : SessionMap
deriving DecidableEq

/-- handleGet: reject with 400 unless the header is truthy and names a known
session; otherwise route to the stored transport.  The map is never
touched. -/
def handleGet (m : SessionMap) (header : Option String) : GetOutcome :=
  if !(optTruthy header) || !(mhas m (header.getD "")) then
    { status := some 400, routed := none, map := m }
  else
    { status := none, routed := mget m (header.getD ""), map := m }

/-- The outcome of handleDelete: the response status, the session map
afterwards, the transports whose close method was awaited, and the
onSessionClosed invocations. -/
structure DeleteOutcome where
  status : Nat
  map : SessionMap
  closedTransports : List Nat
  closedLog : List String
deriving DecidableEq

/-- handleDelete: 400 when the header is not truthy; when the session is
known, close its transport, delete the entry and fire onSessionClosed, then
204; when unknown, 204 with no effect. -/
def handleDelete (m : SessionMap) (header : Option String) : DeleteOutcome :=
  if !(optTruthy header) then
    { status := 400, map := m, closedTransports := [], closedLog := [] }
  else
    let sid := header.getD ""
    match mget m sid with
    | some t =>
        { status := 204, map := mdelete m sid,
          closedTransports := [t], closedLog := [sid] }
    | none =>
        { status := 204, map := m, closedTransports := [], closedLog := [] }

/-- A concrete filesystem with a valid config at /r/a and another at /r/a/b,
where /r/a/b is also handed to discovery as a scan root of its own. -/
def fsNested : Fs where
  existsFile := fun p =>
    p == "/r/a/.tusk/config.yaml" || p == "/r/a/b/.tusk/config.yaml"
  readFile := fun p =>
    if p == "/r/a/.tusk/config.yaml" then Except.ok "A"
    else if p == "/r/a/b/.tusk/config.yaml" then Except.ok "B"
    else Except.error ()
  readdir := fun d =>
    if d == "/r" then Except.ok [{ name := "a", isDirectory := true }]
    else Except.ok []
  realpath := fun r => Except.ok r

/-- Match oracle for fsNested: content A holds id ida, content B holds id
idb, neither holds a name. -/
def rmNested : RegexModel where
  idMatch := fun c =>
    if c == "A" then some "ida" else if c == "B" then some "idb" else none
  nameMatch := fun _ => none

/-- A concrete filesystem with a config file at /r/a from which no id can be
extracted and a valid config at /r/a/b, the latter also handed to discovery
as a scan root of its own. -/
def fsMalformed : Fs where
  existsFile := fun p =>
    p == "/r/a/.tusk/config.yaml" || p == "/r/a/b/.tusk/config.yaml"
  readFile := fun p =>
    if p == "/r/a/.tusk/config.yaml" then Except.ok "M"
    else if p == "/r/a/b/.tusk/config.yaml" then Except.ok "B"
    else Except.error ()
  readdir := fun d =>
    if d == "/r" then Except.ok [{ name := "a", isDirectory := true }]
    else if d == "/r/a" then Except.ok [{ name := "b", isDirectory := true }]
    else Except.ok []
  realpath := fun r => Except.ok r

/-- Match oracle for fsMalformed: no id is extractable from content M. -/
def rmMalformed : RegexModel where
  idMatch := fun c => if c == "B" then some "idb" else none
  nameMatch := fun _ => none

theorem strInfix_append_left (x : String) {n h : String} (hn : strInfix n h) :
    strInfix n (x ++ h) := by
  obtain ⟨a, b, hab⟩ := hn
  exact ⟨x.data ++ a, b, by simp [String.data_append, hab]⟩

theorem strInfix_trans {a b c : String} (h1 : strInfix a b) (h2 : strInfix b c) :
    strInfix a c := by
  obtain ⟨p, q, hpq⟩ := h1
  obtain ⟨u, v, huv⟩ := h2
  exact ⟨u ++ p, q ++ v, by simp [huv, hpq]⟩

theorem strInfix_name_svcLine (s : DiscoveredService) : strInfix s.name (svcLine s) :=
  ⟨"  - \"".data, ("\" (id: " ++ s.id ++ ")").data, by
    simp [svcLine, String.data_append]⟩

theorem strInfix_id_svcLine (s : DiscoveredService) : strInfix s.id (svcLine s) :=
  ⟨("  - \"" ++ s.name ++ "\" (id: ").data, ")".data, by
    simp [svcLine, String.data_append]⟩

theorem mem_joinLines : ∀ (xs : List String) (x : String), x ∈ xs → strInfix x (joinLines xs) := by
  intro xs
  induction xs with
  | nil => intro x hx; cases hx
  | cons x0 xs ih =>
    intro x hx
    cases xs with
    | nil =>
      have hx0 : x = x0 := by
        cases hx with
        | head => rfl
        | tail _ h => cases h
      subst hx0
      exact ⟨[], [], by simp [joinLines]⟩
    | cons y rest =>
      cases hx with
      | head =>
        exact ⟨[], ("\n" ++ joinLines (y :: rest)).data, by
          simp [joinLines, String.data_append]⟩
      | tail _ h =>
        obtain ⟨a, b, hab⟩ := ih x h
        exact ⟨x0.data ++ "\n".data ++ a, b, by
          simp [joinLines, String.data_append, hab]⟩

theorem optTruthy_getD_ne {o : Option String} (h : optTruthy o = true) :
    o.getD "" ≠ "" := by
  cases o with
  | none => simp [optTruthy] at h
  | some s => simpa [optTruthy] using h

theorem mget_mset_ne (m : SessionMap) (k : String) (v : Nat) {q : String}
    (h : q ≠ k) : mget (mset m k v) q = mget m q := by
  induction m with
  | nil => simp [mset, mget, h]
  | cons p rest ih =>
    obtain ⟨a, b⟩ := p
    by_cases hka : k = a
    · subst hka
      simp [mset, mget, h]
    · simp only [mset, if_neg hka]
      by_cases hqa : q = a
      · simp [mget, hqa]
      · simp [mget, hqa, ih]

theorem mget_mdelete_self (m : SessionMap) (k : String) :
    mget (mdelete m k) k = none := by
  induction m with
  | nil => simp [mdelete, mget]
  | cons p rest ih =>
    obtain ⟨a, b⟩ := p
    by_cases hka : k = a
    · subst hka
      simp [mdelete, ih]
    · simp [mdelete, hka, mget, ih]

theorem mget_mdelete_ne (m : SessionMap) (k : String) {q : String}
    (h : q ≠ k) : mget (mdelete m k) q = mget m q := by
  induction m with
  | nil => simp [mdelete]
  | cons p rest ih =>
    obtain ⟨a, b⟩ := p
    by_cases hka : k = a
    · subst hka
      simp [mdelete, mget, h, ih]
    · by_cases hqa : q = a
      · simp [mdelete, hka, mget, hqa]
      · simp [mdelete, hka, mget, hqa, ih]

theorem searchDirectory_id_ne (R : RegexModel) (fs : Fs) :
    ∀ (fuel : Nat) (dir : String) (st : SearchState),
      ∀ s ∈ (searchDirectory R fs fuel dir st).services, s ∈ st.services ∨ s.id ≠ "" := by
  intro fuel
  induction fuel with
  | zero =>
    intro dir st s hs
    exact Or.inl (by simpa [searchDirectory] using hs)
  | succ fuel ih =>
    intro dir st s hs
    by_cases hv : dir ∈ st.visited
    · simp only [searchDirectory] at hs
      rw [if_pos hv] at hs
      exact Or.inl hs
    · by_cases hc : fs.existsFile (tuskConfigPath dir)
      · by_cases hid : optTruthy (parseConfigYaml R fs (tuskConfigPath dir)).1
        · simp only [searchDirectory, hv, hc, hid] at hs
          simp only [if_false, if_true, Bool.false_eq_true, not_false_eq_true,
            ite_true, ite_false] at hs
          simp at hs
          rcases hs with h | h
          · exact Or.inl h
          · right
            rw [h]
            exact optTruthy_getD_ne hid
        · simp only [searchDirectory] at hs
          rw [if_neg hv, if_pos hc, if_neg hid] at hs
          exact Or.inl hs
      · cases hr : fs.readdir dir with
        | error e =>
          simp only [searchDirectory] at hs
          rw [if_neg hv, if_neg hc, hr] at hs
          exact Or.inl hs
        | ok entries =>
          simp only [searchDirectory] at hs
          rw [if_neg hv, if_neg hc, hr] at hs
          have hfold : ∀ (l : List DirEntry) (acc : SearchState),
              ∀ s ∈ (l.foldl
                  (fun acc e =>
                    if entryAllowed e then
                      searchDirectory R fs fuel (pathJoin dir e.name) acc
                    else acc) acc).services,
                s ∈ acc.services ∨ s.id ≠ "" := by
            intro l
            induction l with
            | nil => intro acc s hsf; exact Or.inl hsf
            | cons e rest ihl =>
              intro acc s hsf
              rw [List.foldl_cons] at hsf
              rcases ihl _ s hsf with h | h
              · by_cases he : entryAllowed e
                · rw [if_pos he] at h
                  exact ih _ _ s h
                · rw [if_neg he] at h
                  exact Or.inl h
              · exact Or.inr h
          rcases hfold entries _ s hs with h | h
          · exact Or.inl h
          · exact Or.inr h

theorem entryAllowed_parts {e : DirEntry} (h : entryAllowed e = true) :
    e.isDirectory = true ∧ strStartsWith e.name "." = false ∧ e.name ≠ "node_modules" := by
  simp only [entryAllowed, Bool.and_eq_true, Bool.not_eq_true', bne_iff_ne] at h
  exact ⟨h.1.1, h.1.2, h.2⟩

theorem searchDirectory_reach (R : RegexModel) (fs : Fs) :
    ∀ (fuel : Nat) (dir : String) (st : SearchState),
      ∀ s ∈ (searchDirectory R fs fuel dir st).services,
        s ∈ st.services ∨
          (ReachesWithin fs fuel dir s.rootPath ∧
            fs.existsFile (tuskConfigPath s.rootPath) = true) := by
  intro fuel
  induction fuel with
  | zero =>
    intro dir st s hs
    exact Or.inl (by simpa [searchDirectory] using hs)
  | succ fuel ih =>
    intro dir st s hs
    by_cases hv : dir ∈ st.visited
    · simp only [searchDirectory] at hs
      rw [if_pos hv] at hs
      exact Or.inl hs
    · by_cases hc : fs.existsFile (tuskConfigPath dir)
      · by_cases hid : optTruthy (parseConfigYaml R fs (tuskConfigPath dir)).1
        · simp only [searchDirectory, hv, hc, hid] at hs
          simp at hs
          rcases hs with h | h
          · exact Or.inl h
          · right
            have hroot : s.rootPath = dir := by rw [h]
            rw [hroot]
            exact ⟨ReachesWithin.refl fuel dir, hc⟩
        · simp only [searchDirectory] at hs
          rw [if_neg hv, if_pos hc, if_neg hid] at hs
          exact Or.inl hs
      · cases hr : fs.readdir dir with
        | error e =>
          simp only [searchDirectory] at hs
          rw [if_neg hv, if_neg hc, hr] at hs
          exact Or.inl hs
        | ok entries =>
          simp only [searchDirectory] at hs
          rw [if_neg hv, if_neg hc, hr] at hs
          have hfold : ∀ (l : List DirEntry) (acc : SearchState),
              (∀ x ∈ l, x ∈ entries) →
              ∀ s ∈ (l.foldl
                  (fun acc e =>
                    if entryAllowed e then
                      searchDirectory R fs fuel (pathJoin dir e.name) acc
                    else acc) acc).services,
                s ∈ acc.services ∨
                  (ReachesWithin fs (fuel + 1) dir s.rootPath ∧
                    fs.existsFile (tuskConfigPath s.rootPath) = true) := by
            intro l
            induction l with
            | nil => intro acc _ s hsf; exact Or.inl hsf
            | cons e rest ihl =>
              intro acc hsub s hsf
              rw [List.foldl_cons] at hsf
              rcases ihl _ (fun x hx => hsub x (List.mem_cons_of_mem e hx)) s hsf with h | h
              · by_cases he : entryAllowed e
                · rw [if_pos he] at h
                  rcases ih _ _ s h with h2 | h2
                  · exact Or.inl h2
                  · obtain ⟨hd, hsw, hnm⟩ := entryAllowed_parts he
                    exact Or.inr ⟨ReachesWithin.step fuel dir e entries s.rootPath
                      hr (hsub e (List.mem_cons_self e rest)) hd hsw hnm h2.1, h2.2⟩
                · rw [if_neg he] at h
                  exact Or.inl h
              · exact Or.inr h
          rcases hfold entries _ (fun x hx => hx) s hs with h | h
          · exact Or.inl h
          · exact Or.inr h

theorem rootStep_eq (R : RegexModel) (fs : Fs) (maxDepth : Nat)
    (st : SearchState) (root : String) :
    rootStep R fs maxDepth st root =
      searchDirectory R fs (maxDepth + 1) (resolveRoot fs root) st := by
  cases h : fs.realpath root <;> simp [rootStep, resolveRoot, h]

theorem findTuskConfigs_fold_id_ne (R : RegexModel) (fs : Fs) (maxDepth : Nat) :
    ∀ (roots : List String) (st : SearchState),
      ∀ s ∈ (roots.foldl (rootStep R fs maxDepth) st).services,
        s ∈ st.services ∨ s.id ≠ "" := by
  intro roots
  induction roots with
  | nil => intro st s hs; exact Or.inl hs
  | cons r rest ihr =>
    intro st s hs
    rw [List.foldl_cons] at hs
    rcases ihr _ s hs with h | h
    · rw [rootStep_eq] at h
      exact searchDirectory_id_ne R fs _ _ _ s h
    · exact Or.inr h

theorem findTuskConfigs_id_ne (R : RegexModel) (fs : Fs) (roots : List String)
    (maxDepth : Nat) : ∀ s ∈ findTuskConfigs R fs roots maxDepth, s.id ≠ "" := by
  intro s hs
  rcases findTuskConfigs_fold_id_ne R fs maxDepth roots _ s hs with h | h
  · cases h
  · exact h

theorem findTuskConfigs_fold_reach (R : RegexModel) (fs : Fs) (maxDepth : Nat) :
    ∀ (roots : List String) (st : SearchState),
      ∀ s ∈ (roots.foldl (rootStep R fs maxDepth) st).services,
        s ∈ st.services ∨
          ∃ root ∈ roots,
            ReachesWithin fs (maxDepth + 1) (resolveRoot fs root) s.rootPath ∧
              fs.existsFile (tuskConfigPath s.rootPath) = true := by
  intro roots
  induction roots with
  | nil => intro st s hs; exact Or.inl hs
  | cons r rest ihr =>
    intro st s hs
    rw [List.foldl_cons] at hs
    rcases ihr _ s hs with h | h
    · rw [rootStep_eq] at h
      rcases searchDirectory_reach R fs _ _ _ s h with h2 | h2
      · exact Or.inl h2
      · exact Or.inr ⟨r, List.mem_cons_self r rest, h2⟩
    · obtain ⟨root, hmem, hre⟩ := h
      exact Or.inr ⟨root, List.mem_cons_of_mem r hmem, hre⟩

/-- Claim C1: resolveServiceId follows the stated precedence.  A non-empty
provided id is returned verbatim for every context; otherwise a truthy
configured default is returned; otherwise the sole discovered entry is
returned; otherwise the call throws, and with two or more discovered
entries the error text contains every candidate name and id. -/
theorem c1_resolve_precedence (ctx : ServiceDiscoveryContext) (provided : Option String) :
    (∀ p, provided = some p → p ≠ "" → resolveServiceId ctx provided = Except.ok p)
    ∧ (optTruthy provided = false →
        ∀ d, ctx.defaultServiceId = some d → d ≠ "" →
          resolveServiceId ctx provided = Except.ok d)
    ∧ (optTruthy provided = false → optTruthy ctx.defaultServiceId = false →
        ∀ s, ctx.discoveredServices = [s] →
          resolveServiceId ctx provided = Except.ok s.id)
    ∧ (optTruthy provided = false → optTruthy ctx.defaultServiceId = false →
        ctx.discoveredServices.length ≠ 1 →
        ∃ msg, resolveServiceId ctx provided = Except.error msg
          ∧ ∀ s ∈ ctx.discoveredServices, strInfix s.name msg ∧ strInfix s.id msg) := by
  refine ⟨?_, ?_, ?_, ?_⟩
  · intro p hp hne
    subst hp
    simp [resolveServiceId, optTruthy, hne]
  · intro hp d hd hdne
    have hd3 : optTruthy (some d) = true := by simp [optTruthy, hdne]
    simp [resolveServiceId, hp, hd, hd3]
  · intro hp hd s hs
    simp [resolveServiceId, hp, hd, hs]
  · intro hp hd hlen
    cases hss : ctx.discoveredServices with
    | nil =>
      refine ⟨noServiceError, by simp [resolveServiceId, hp, hd, hss], ?_⟩
      simp
    | cons s0 rest =>
      cases rest with
      | nil => exact absurd (by simp [hss]) hlen
      | cons s1 rest2 =>
        refine ⟨multipleServicesError (s0 :: s1 :: rest2), ?_, ?_⟩
        · simp [resolveServiceId, hp, hd, hss]
        · intro s hs
          have hmem : svcLine s ∈ (s0 :: s1 :: rest2).map svcLine :=
            List.mem_map_of_mem svcLine hs
          have hline := mem_joinLines _ _ hmem
          constructor
          · exact strInfix_append_left _
              (strInfix_trans (strInfix_name_svcLine s) hline)
          · exact strInfix_append_left _
              (strInfix_trans (strInfix_id_svcLine s) hline)

theorem c1_resolve_precedence_witness :
    resolveServiceId { discoveredServices := [], defaultServiceId := some "other" }
      (some "explicit") = Except.ok "explicit" :=
  (c1_resolve_precedence
      { discoveredServices := [], defaultServiceId := some "other" }
      (some "explicit")).1 "explicit" rfl (by decide)

/-- Claim C9: every id resolveServiceId returns is non-empty.  A provided
empty string is treated as absent (it resolves exactly as an absent
argument), every service recorded by discovery carries a non-empty id, and
under the stated hypotheses on the context every successful resolution
returns a non-empty string. -/
theorem c9_resolved_id_nonempty :
    (∀ R fs roots maxDepth, ∀ s ∈ findTuskConfigs R fs roots maxDepth, s.id ≠ "")
    ∧ (∀ ctx, resolveServiceId ctx (some "") = resolveServiceId ctx none)
    ∧ (∀ ctx provided r,
        (∀ d, ctx.defaultServiceId = some d → d ≠ "") →
        (∀ s ∈ ctx.discoveredServices, s.id ≠ "") →
        resolveServiceId ctx provided = Except.ok r → r ≠ "") := by
  refine ⟨fun R fs roots maxDepth => findTuskConfigs_id_ne R fs roots maxDepth, ?_, ?_⟩
  · intro ctx
    simp [resolveServiceId, optTruthy]
  · intro ctx provided r _ hsvc hok
    by_cases hp : optTruthy provided = true
    · rw [resolveServiceId, if_pos hp] at hok
      have := optTruthy_getD_ne hp
      rw [Except.ok.injEq] at hok
      rw [← hok]
      exact this
    · rw [Bool.not_eq_true] at hp
      by_cases hd : optTruthy ctx.defaultServiceId = true
      · rw [resolveServiceId, if_neg (by simp [hp]), if_pos hd] at hok
        have := optTruthy_getD_ne hd
        rw [Except.ok.injEq] at hok
        rw [← hok]
        exact this
      · rw [Bool.not_eq_true] at hd
        rw [resolveServiceId, if_neg (by simp [hp]), if_neg (by simp [hd])] at hok
        cases hss : ctx.discoveredServices with
        | nil => rw [hss] at hok; cases hok
        | cons s0 rest =>
          cases rest with
          | nil =>
            rw [hss] at hok
            simp only [Except.ok.injEq] at hok
            rw [← hok]
            exact hsvc s0 (by rw [hss]; exact List.mem_cons_self s0 [])
          | cons s1 rest2 => rw [hss] at hok; cases hok

theorem c9_resolved_id_nonempty_witness : ("i1" : String) ≠ "" :=
  c9_resolved_id_nonempty.2.2
    { discoveredServices :=
        [{ id := "i1", name := "n1", configPath := "c1", rootPath := "r1" }],
      defaultServiceId := none }
    none "i1" (by simp) (by decide) rfl

/-- Claim C2: on an initiation request the synchronous handler body leaves
the session map untouched; the entry is installed only by the
onsessioninitialized callback, so a transport that never initializes leaves
no entry; and the onclose teardown hook removes exactly the installed entry
and fires onSessionClosed once with that session id. -/
theorem c2_initiation_install :
    (∀ m tid, handlePostSync m none tid =
      { route := PostRoute.created tid, map := m, serverCreated := true })
    ∧ (∀ m sid tid, mhas m sid = false →
        handlePostSync m (some sid) tid =
          { route := PostRoute.created tid, map := m, serverCreated := true })
    ∧ (∀ m tid evs, (∀ sid, TransportEvent.initialized sid ∉ evs) →
        (runEvents tid (initialInitState m) evs).map = m)
    ∧ (∀ m tid sid,
        (runEvents tid (initialInitState m)
          [TransportEvent.initialized sid, TransportEvent.closed]).closedLog = [sid]
        ∧ (runEvents tid (initialInitState m)
            [TransportEvent.initialized sid, TransportEvent.closed]).createdLog = [sid]
        ∧ ∀ k, mget (runEvents tid (initialInitState m)
            [TransportEvent.initialized sid, TransportEvent.closed]).map k
            = if k = sid then none else mget m k) := by
  refine ⟨?_, ?_, ?_, ?_⟩
  · intro m tid
    simp [handlePostSync]
  · intro m sid tid hh
    by_cases he : sid = ""
    · subst he
      simp [handlePostSync]
    · have : mget m sid = none := by
        rw [mhas] at hh
        exact Option.not_isSome_iff_eq_none.mp (by simp [hh])
      simp [handlePostSync, he, this]
  · intro m tid evs hno
    have haux : ∀ (l : List TransportEvent) (st : InitState),
        (∀ sid, TransportEvent.initialized sid ∉ l) →
        st.tsid = none →
        (runEvents tid st l).map = st.map ∧ (runEvents tid st l).tsid = none := by
      intro l
      induction l with
      | nil => intro st _ ht; exact ⟨rfl, ht⟩
      | cons e rest ihl =>
        intro st hnol ht
        cases e with
        | initialized sid =>
          exact absurd (List.mem_cons_self _ rest) (hnol sid)
        | closed =>
          have hstep : stepEvent tid st TransportEvent.closed = st := by
            simp [stepEvent, ht]
          have hre : runEvents tid st (TransportEvent.closed :: rest) =
              runEvents tid st rest := by
            simp [runEvents, List.foldl_cons, hstep]
          rw [hre]
          exact ihl st (fun sid hm => hnol sid (List.mem_cons_of_mem _ hm)) ht
    exact (haux evs (initialInitState m) hno rfl).1
  · intro m tid sid
    refine ⟨?_, ?_, ?_⟩
    · simp [runEvents, stepEvent, initialInitState]
    · simp [runEvents, stepEvent, initialInitState]
    · intro k
      by_cases hk : k = sid
      · subst hk
        simp [runEvents, stepEvent, initialInitState, mget_mdelete_self]
      · simp [runEvents, stepEvent, initialInitState, hk,
          mget_mdelete_ne _ _ hk, mget_mset_ne _ _ _ hk]

theorem c2_initiation_install_witness :
    handlePostSync [("other", 3)] (some "fresh") 7 =
      { route := PostRoute.created 7, map := [("other", 3)], serverCreated := true } :=
  c2_initiation_install.2.1 [("other", 3)] "fresh" 7 (by decide)

/-- Claim C5: a streaming (GET) request whose session id header is absent,
or names an id not present in the session map, is rejected with 400; no
transport is routed to and the session map is unchanged. -/
theorem c5_streaming_requires_session (m : SessionMap) (header : Option String)
    (h : header = none ∨ ∀ s, header = some s → mhas m s = false) :
    handleGet m header = { status := some 400, routed := none, map := m } := by
  rcases h with h | h
  · subst h
    simp [handleGet, optTruthy]
  · cases header with
    | none => simp [handleGet, optTruthy]
    | some s =>
      have hs := h s rfl
      simp [handleGet, hs]

theorem c5_streaming_requires_session_witness :
    handleGet [("s1", 4)] (some "ghost") =
      { status := some 400, routed := none, map := [("s1", 4)] } :=
  c5_streaming_requires_session [("s1", 4)] (some "ghost")
    (Or.inr (by intro s hs; cases hs; decide))

/-- Claim C4 as stated is false: a DELETE request that supplies the empty
string as its session id is supplied-but-unknown in the map, so the claim
acknowledges it with 204, but the handler treats the falsy header like a
missing one and answers 400. -/
theorem c4_counterexample :
    handleDelete [] (some "") =
      { status := 400, map := [], closedTransports := [], closedLog := [] }
    ∧ handleDelete [] (some "") ≠
      { status := 204, map := [], closedTransports := [], closedLog := [] } := by
  constructor
  · rfl
  · intro h
    cases h

/-- Claim C4, amended: an absent or empty session id header is answered 400
with the map unchanged; a non-empty id present in the map has its transport
closed, its entry removed and onSessionClosed fired before the 204; a
supplied non-empty but unknown id is acknowledged 204 as a no-op. -/
theorem c4_amended_termination (m : SessionMap) (header : Option String) :
    ((header = none ∨ header = some "") →
      handleDelete m header =
        { status := 400, map := m, closedTransports := [], closedLog := [] })
    ∧ (∀ sid t, header = some sid → sid ≠ "" → mget m sid = some t →
        handleDelete m header =
          { status := 204, map := mdelete m sid,
            closedTransports := [t], closedLog := [sid] }
        ∧ mhas (mdelete m sid) sid = false)
    ∧ (∀ sid, header = some sid → sid ≠ "" → mget m sid = none →
        handleDelete m header =
          { status := 204, map := m, closedTransports := [], closedLog := [] }) := by
  refine ⟨?_, ?_, ?_⟩
  · intro h
    rcases h with h | h <;> subst h <;> simp [handleDelete, optTruthy]
  · intro sid t hh hne hget
    subst hh
    constructor
    · simp [handleDelete, optTruthy, hne, hget]
    · simp [mhas, mget_mdelete_self]
  · intro sid hh hne hget
    subst hh
    simp [handleDelete, optTruthy, hne, hget]

theorem c4_amended_termination_witness :
    (handleDelete [("a", 3)] (some "a") =
      { status := 204, map := mdelete [("a", 3)] "a",
        closedTransports := [3], closedLog := ["a"] }
    ∧ mhas (mdelete [("a", 3)] "a") "a" = false) :=
  (c4_amended_termination [("a", 3)] (some "a")).2.1 "a" 3 rfl (by decide) rfl

/-- Claim C6 as stated is false: when the empty string is a key of the
session map and a POST supplies the empty session id header, the truthiness
test of the handler fails and it constructs a new transport and invokes
createServer instead of reusing the stored transport. -/
theorem c6_counterexample :
    mhas [("", 5)] "" = true
    ∧ handlePostSync [("", 5)] (some "") 7 =
        { route := PostRoute.created 7, map := [("", 5)], serverCreated := true }
    ∧ handlePostSync [("", 5)] (some "") 7 ≠
        { route := PostRoute.reuse 5, map := [("", 5)], serverCreated := false } := by
  refine ⟨rfl, rfl, ?_⟩
  intro h
  cases h

/-- Claim C6, amended: a POST whose non-empty session id header is present
in the session map is routed to exactly the stored transport; no transport
is constructed, createServer is not invoked and the map is unchanged. -/
theorem c6_amended_reuse (m : SessionMap) (sid : String) (t tid : Nat)
    (hne : sid ≠ "") (hget : mget m sid = some t) :
    handlePostSync m (some sid) tid =
      { route := PostRoute.reuse t, map := m, serverCreated := false } := by
  simp [handlePostSync, hne, hget]

theorem c6_amended_reuse_witness :
    handlePostSync [("s1", 9)] (some "s1") 7 =
      { route := PostRoute.reuse 9, map := [("s1", 9)], serverCreated := false } :=
  c6_amended_reuse [("s1", 9)] "s1" 9 7 (by decide) rfl

/-- Claim C3 as stated is false: a scan root placed strictly below a
directory that holds a config file is still scanned, so the resulting list
can contain a service whose rootPath is a strict descendant of a
config-bearing directory.  With roots /r and /r/a/b, a config at /r/a and
one at /r/a/b, the service rooted at /r/a/b is discovered even though a
config file exists at /r/a. -/
theorem c3_counterexample :
    findTuskConfigs rmNested fsNested ["/r", "/r/a/b"] 3 =
      [{ id := "ida", name := "a",
         configPath := "/r/a/.tusk/config.yaml", rootPath := "/r/a" },
       { id := "idb", name := "b",
         configPath := "/r/a/b/.tusk/config.yaml", rootPath := "/r/a/b" }]
    ∧ fsNested.existsFile (tuskConfigPath "/r/a") = true
    ∧ "/r/a/b" = pathJoin "/r/a" "b" := by
  refine ⟨by decide, rfl, rfl⟩

/-- Claim C3, amended: a config file found at a directory halts descent into
the subtree of that directory — the scan of a directory where a config file
exists adds no service besides, possibly, one rooted at that directory
itself, so within the traversal of a single root a config at root/a prevents any
config at root/a/b or deeper from being considered.  The guarantee does not
extend to a scan root placed strictly below the config-bearing
directory. -/
theorem c3_amended_config_halts (R : RegexModel) (fs : Fs) (fuel : Nat)
    (d : String) (st : SearchState)
    (hcfg : fs.existsFile (tuskConfigPath d) = true) :
    ∀ s ∈ (searchDirectory R fs fuel d st).services,
      s ∈ st.services ∨ s.rootPath = d := by
  cases fuel with
  | zero =>
    intro s hs
    exact Or.inl (by simpa [searchDirectory] using hs)
  | succ fuel =>
    intro s hs
    by_cases hv : d ∈ st.visited
    · simp only [searchDirectory] at hs
      rw [if_pos hv] at hs
      exact Or.inl hs
    · by_cases hid : optTruthy (parseConfigYaml R fs (tuskConfigPath d)).1
      · simp only [searchDirectory, hv, hcfg, hid] at hs
        simp at hs
        rcases hs with h | h
        · exact Or.inl h
        · exact Or.inr (by rw [h])
      · simp only [searchDirectory] at hs
        rw [if_neg hv, if_pos hcfg, if_neg hid] at hs
        exact Or.inl hs

theorem c3_amended_config_halts_witness :
    ({ id := "ida", name := "a",
       configPath := "/r/a/.tusk/config.yaml", rootPath := "/r/a" } : DiscoveredService)
        ∈ ({ services := [], visited := [] } : SearchState).services
    ∨ ({ id := "ida", name := "a",
         configPath := "/r/a/.tusk/config.yaml", rootPath := "/r/a" } : DiscoveredService).rootPath
        = "/r/a" :=
  c3_amended_config_halts rmNested fsNested 4 "/r/a"
    { services := [], visited := [] } rfl
    { id := "ida", name := "a",
      configPath := "/r/a/.tusk/config.yaml", rootPath := "/r/a" }
    (by decide)

/-- Claim C10 as stated is false in its consequence: the scan of a directory
whose config file yields no id records nothing and does not descend, but a
valid config nested beneath it can still be discovered when a scan root is
placed at the nested directory itself.  With roots /r and /r/a/b, an id-less
config at /r/a and a valid one at /r/a/b, the nested service is
discovered. -/
theorem c10_counterexample :
    fsMalformed.existsFile (tuskConfigPath "/r/a") = true
    ∧ (parseConfigYaml rmMalformed fsMalformed (tuskConfigPath "/r/a")).1 = none
    ∧ findTuskConfigs rmMalformed fsMalformed ["/r", "/r/a/b"] 3 =
        [{ id := "idb", name := "b",
           configPath := "/r/a/b/.tusk/config.yaml", rootPath := "/r/a/b" }]
    ∧ "/r/a/b" = pathJoin "/r/a" "b" := by
  refine ⟨rfl, rfl, by decide, rfl⟩

/-- Claim C10, amended: at a directory where the config file exists but no
truthy id is extracted, the scan records no service and does not descend —
the state is unchanged except that the directory joins the visited set — so
within the traversal of a given root a valid config nested beneath an
id-less config is never discovered; a scan root placed below the id-less
directory can still discover it. -/
theorem c10_amended_malformed_halts (R : RegexModel) (fs : Fs) (fuel : Nat)
    (d : String) (st : SearchState)
    (hcfg : fs.existsFile (tuskConfigPath d) = true)
    (hid : optTruthy (parseConfigYaml R fs (tuskConfigPath d)).1 = false)
    (hv : d ∉ st.visited) :
    searchDirectory R fs (fuel + 1) d st = { st with visited := d :: st.visited } := by
  simp only [searchDirectory]
  rw [if_neg hv, if_pos hcfg, if_neg (by simp [hid])]

theorem c10_amended_malformed_halts_witness :
    searchDirectory rmMalformed fsMalformed 4 "/r/a"
        { services := [], visited := [] } =
      { services := [], visited := ["/r/a"] } :=
  c10_amended_malformed_halts rmMalformed fsMalformed 3 "/r/a"
    { services := [], visited := [] } rfl rfl (by decide)

/-- Claim C7: discovery absorbs filesystem and file-content failures.  An
unreadable config file parses to no fields; a directory with no config file
whose listing throws is merely marked visited and the scan moves on; a root
whose canonical-path resolution throws is scanned by its raw path; and the
scan of the remaining roots proceeds from whatever state the first root
left. -/
theorem c7_failures_absorbed :
    (∀ R fs p e, fs.readFile p = Except.error e →
      parseConfigYaml R fs p = (none, none))
    ∧ (∀ R fs fuel dir st e, fs.existsFile (tuskConfigPath dir) = false →
        fs.readdir dir = Except.error e → dir ∉ st.visited →
        searchDirectory R fs (fuel + 1) dir st = { st with visited := dir :: st.visited })
    ∧ (∀ R fs maxDepth st root e, fs.realpath root = Except.error e →
        rootStep R fs maxDepth st root = searchDirectory R fs (maxDepth + 1) root st)
    ∧ (∀ R fs maxDepth root rest,
        findTuskConfigs R fs (root :: rest) maxDepth =
          (rest.foldl (rootStep R fs maxDepth)
            (rootStep R fs maxDepth { services := [], visited := [] } root)).services) := by
  refine ⟨?_, ?_, ?_, ?_⟩
  · intro R fs p e h
    simp [parseConfigYaml, h]
  · intro R fs fuel dir st e hc hr hv
    simp only [searchDirectory]
    rw [if_neg hv, if_neg (by simp [hc]), hr]
  · intro R fs maxDepth st root e h
    simp [rootStep, h]
  · intro R fs maxDepth root rest
    simp [findTuskConfigs, List.foldl_cons]

theorem c7_failures_absorbed_witness :
    parseConfigYaml rmNested fsNested "/nowhere" = (none, none) :=
  c7_failures_absorbed.1 rmNested fsNested "/nowhere" () rfl

/-- Claim C8: the traversal is a bounded terminating scan.  Every service
discovered at the default depth 3 sits at a directory reachable from some
resolved root by at most three descent steps, each through a listed entry
that is a directory, not hidden and not node_modules; a directory already
in the visited set is never processed again; and exhausted fuel (the
depth guard) stops the scan outright. -/
theorem c8_bounded_traversal :
    (∀ R fs ctx roots, ∀ s ∈ (discoverFromRoots R fs ctx roots).discoveredServices,
        ∃ root ∈ roots, ReachesWithin fs 4 (resolveRoot fs root) s.rootPath)
    ∧ (∀ R fs fuel dir st, dir ∈ st.visited → searchDirectory R fs fuel dir st = st)
    ∧ (∀ R fs dir st, searchDirectory R fs 0 dir st = st) := by
  refine ⟨?_, ?_, ?_⟩
  · intro R fs ctx roots s hs
    have hm : s ∈ (roots.foldl (rootStep R fs 3)
        { services := [], visited := [] }).services := by
      simpa [discoverFromRoots, findTuskConfigs] using hs
    rcases findTuskConfigs_fold_reach R fs 3 roots _ s hm with h | h
    · cases h
    · obtain ⟨root, hmem, hre, _⟩ := h
      exact ⟨root, hmem, hre⟩
  · intro R fs fuel dir st hv
    cases fuel with
    | zero => simp [searchDirectory]
    | succ fuel =>
      simp only [searchDirectory]
      rw [if_pos hv]
  · intro R fs dir st
    simp [searchDirectory]

theorem c8_bounded_traversal_witness :
    searchDirectory rmNested fsNested 2 "/r" { services := [], visited := ["/r"] } =
      { services := [], visited := ["/r"] } :=
  c8_bounded_traversal.2.1 rmNested fsNested 2 "/r"
    { services := [], visited := ["/r"] } (by decide)
